import Mathlib

/-!
Shallow embedding of the Box16 YM2151 chip-timing-and-resampling interface
(`src/ym2151/ym2151.cpp`): the busy/timer clock model, the deferred write
queue, the sample backbuffer with its production loop, the `YM_*` global entry
points (register latch mirror, two-phase write port, prerender clock
accounting, render), and the active `YM2151_USE_R8BRAIN_RESAMPLING` variant of
`ym2151_interface::generate`.

Machine integers are modelled as `Nat`/`Int`; 32-bit wraparound is made
explicit (`u32`, `uadd32`, `usub32`, `int32OfUInt32`) exactly where the C++
source computes in `uint32_t`/`int32_t`.  The ymfm tone engine itself is not
part of the repository; its register storage and data-write behaviour are
modelled from the spec (see the doc comments on `chipWriteAddress`,
`chipWriteData` and `chipSampleRateSpec`).
-/

namespace Ym2151

/-- Reduction modulo 2^32, the value of a C++ `uint32_t` expression. -/
def u32 (n : Nat) : Nat := n % 4294967296

/-- `uint32_t` addition (wraps modulo 2^32). -/
def uadd32 (a b : Nat) : Nat := u32 (a + b)

/-- `uint32_t` subtraction `a - b` (wraps modulo 2^32); both arguments are
assumed already reduced (every state field is kept `< 2^32`). -/
def usub32 (a b : Nat) : Nat := u32 (a + 4294967296 - u32 b)

/-- Value of a `uint32_t` after conversion to `int32_t` (two's complement),
used where the source passes a `uint32_t` to an `int` parameter
(`update_clocks(samples)`, `m_busy_timer = clocks`). -/
def int32OfUInt32 (n : Nat) : Int :=
  if n < 2147483648 then (n : Int) else (n : Int) - 4294967296

/-- Modelled from the spec: `YM_CLOCK_RATE` and the tone engine's
`sample_rate()` live in headers outside `src/`; the spec gives the native rate
as approximately 62500 Hz ("native rate 62500 Hz (approximate real chip
rate)"), which `ym2151_interface`'s constructor uses both as
`m_chip_sample_rate` and as `m_backbuffer_size` (one second of native-rate
audio). -/
def chipSampleRateSpec : Nat := 62500

/-- State of one `ym2151_interface` instance.

`chipRegs`, `chipAddr` and `chipWrites` model the tone engine side:
`chipRegs` is the engine's own register storage (modelled from the spec — the
engine is an external capability that consumes register writes), `chipAddr`
is the address latched by `m_chip.write_address`, and `chipWrites` is the
trace of data writes actually delivered to the engine, newest last.
`warnings` counts diagnostic `printf` reports from the busy-drop path.  The
remaining fields mirror the C++ members of the same names. -/
structure YmState where
  chipRegs : Nat → Nat
  chipAddr : Nat
  chipWrites : List (Nat × Nat)
  busy_timer : Int
  timer0 : Int
  timer1 : Int
  fired : List Nat
  backbuffer_used : Nat
  backbuffer_size : Nat
  chip_sample_rate : Nat
  write_queue : List (Nat × Nat)
  resampled0 : List Int
  resampled1 : List Int
  prev_sample_rate : Nat
  warnings : Nat

/-- The freshly constructed `ym2151_interface` (constructor initializer list;
C++ zero-initializes the remaining members of the static instance). -/
def initialInterface : YmState where
  chipRegs := fun _ => 0
  chipAddr := 0
  chipWrites := []
  busy_timer := 0
  timer0 := 0
  timer1 := 0
  fired := []
  backbuffer_used := 0
  backbuffer_size := chipSampleRateSpec
  chip_sample_rate := chipSampleRateSpec
  write_queue := []
  resampled0 := []
  resampled1 := []
  prev_sample_rate := 0
  warnings := 0

/-- Modelled from the spec: `m_chip.write_address(a)` — the tone engine
latches the target register address (no other side effect). -/
def chipWriteAddress (a : Nat) (s : YmState) : YmState :=
  { s with chipAddr := a }

/-- Modelled from the spec: `m_chip.write_data(v, _)` — the tone engine
consumes the write at the latched address into its own register storage; we
additionally record the delivered (address, value) pair in the `chipWrites`
trace. -/
def chipWriteData (v : Nat) (s : YmState) : YmState :=
  { s with
    chipRegs := fun a => if a = s.chipAddr then v else s.chipRegs a
    chipWrites := s.chipWrites ++ [(s.chipAddr, v)] }

/-- `ymfm_set_timer(tnum, duration_in_clocks)`: indices other than 0 and 1
are reported and ignored; otherwise the timer counter is replaced. -/
def ymfm_set_timer (tnum : Nat) (d : Int) (s : YmState) : YmState :=
  if 2 ≤ tnum then s
  else if tnum = 0 then { s with timer0 := d }
  else { s with timer1 := d }

/-- `ymfm_set_busy_end(clocks)`: `m_busy_timer = clocks` (a `uint32_t`
stored into an `int32_t`). -/
def ymfm_set_busy_end (clocks : Nat) (s : YmState) : YmState :=
  { s with busy_timer := int32OfUInt32 (u32 clocks) }

/-- `ymfm_is_busy()`: `m_busy_timer > 0`. -/
def ymfm_is_busy (s : YmState) : Bool := 0 < s.busy_timer

/-- One timer's new counter under a decrement of `d` clocks: the loop body
`if (m_timers[i] > 0) m_timers[i] = std::max(0, m_timers[i] - d)`. -/
def timerNext (d t : Int) : Int :=
  if 0 < t then max 0 (t - d) else t

/-- Whether the loop body fires `engine_timer_expired` for a timer at `t`
under a decrement of `d` clocks: the counter was armed and the clamped new
value is `≤ 0`. -/
def timerFires (d t : Int) : Bool :=
  decide (0 < t) && decide (max 0 (t - d) ≤ 0)

/-- Common body of the two `update_clocks` overloads with decrement `d`
(`d = 64` for the no-argument overload, `d = 64 * cycles` for the other):
clamp-decrement the busy counter, then decrement each armed timer in index
order, appending the index to the `fired` trace when a timer expires. -/
def clocksAdvance (d : Int) (s : YmState) : YmState :=
  let s1 : YmState := { s with busy_timer := max 0 (s.busy_timer - d) }
  let s2 : YmState :=
    { s1 with
      timer0 := timerNext d s1.timer0
      fired := if timerFires d s1.timer0 then s1.fired ++ [0] else s1.fired }
  { s2 with
    timer1 := timerNext d s2.timer1
    fired := if timerFires d s2.timer1 then s2.fired ++ [1] else s2.fired }

/-- `update_clocks()` (no argument): fixed decrement of 64 clocks. -/
def update_clocks0 (s : YmState) : YmState := clocksAdvance 64 s

/-- `update_clocks(int cycles)`: decrement of `64 * cycles` clocks. -/
def update_clocks (cycles : Int) (s : YmState) : YmState :=
  clocksAdvance (64 * cycles) s

/-- Fold of `clocksAdvance` over a list of per-call clock decrements. -/
def runAdvance (ds : List Int) (s : YmState) : YmState :=
  ds.foldl (fun s d => clocksAdvance d s) s

/-- Fold of `update_clocks` over a list of per-call cycle counts. -/
def runClocks (cs : List Int) (s : YmState) : YmState :=
  cs.foldl (fun s c => update_clocks c s) s

/-- `pregenerate()` (no-argument, single-sample variant): if the backbuffer
has room, apply the front pending write when the queue is non-empty (address
then data — note the source does not pop it), generate one sample, advance
the clocks by one sample, and count the sample.  The sample's audio content
is opaque; only the `used` count is modelled. -/
def pregenerate0 (s : YmState) : YmState :=
  if s.backbuffer_used < s.backbuffer_size then
    let s1 : YmState :=
      match s.write_queue with
      | [] => s
      | (a, v) :: _ => chipWriteData v (chipWriteAddress a s)
    let s2 : YmState := update_clocks0 s1
    { s2 with backbuffer_used := uadd32 s2.backbuffer_used 1 }
  else s

/-- Drain loop of `pregenerate(uint32_t)`: while samples remain and the
queue is non-empty, apply the front write (address then data), generate one
sample, advance the clocks by one sample, count the sample, and pop the
entry.  Returns the remaining sample budget together with the new state. -/
def drainLoop : Nat → YmState → Nat × YmState
  | 0, s => (0, s)
  | n + 1, s =>
    match s.write_queue with
    | [] => (n + 1, s)
    | (a, v) :: rest =>
      let s1 : YmState := chipWriteData v (chipWriteAddress a s)
      let s2 : YmState := update_clocks0 s1
      let s3 : YmState :=
        { s2 with
          backbuffer_used := uadd32 s2.backbuffer_used 1
          write_queue := rest }
      drainLoop n s3

/-- Entry clamp of `pregenerate(uint32_t)`: `if (m_backbuffer_used + samples
> m_backbuffer_size) samples = m_backbuffer_size - m_backbuffer_used`, all in
`uint32_t` arithmetic. -/
def pregenClamp (samples0 : Nat) (s : YmState) : Nat :=
  if s.backbuffer_size < uadd32 s.backbuffer_used samples0
  then usub32 s.backbuffer_size s.backbuffer_used
  else u32 samples0

/-- Bulk tail of `pregenerate(uint32_t)`: for the `rem` samples left after
the drain loop, generate them in one `m_chip.generate` call, advance the
clocks by `update_clocks((int)rem)`, and add `rem` to the used count
(`uint32_t` addition). -/
def pregenBulk (rem : Nat) (s1 : YmState) : YmState :=
  if 0 < rem then
    let s2 : YmState := update_clocks (int32OfUInt32 rem) s1
    { s2 with backbuffer_used := uadd32 s2.backbuffer_used rem }
  else s1

/-- `pregenerate(uint32_t samples)`: clamp, drain queued writes one-for-one
with generated samples, then generate the remainder in bulk.  The second
component is the total number of native-rate samples handed to
`m_chip.generate` (the drain loop and the bulk tail together generate
exactly the clamped count). -/
def pregenerateRun (samples0 : Nat) (s : YmState) : YmState × Nat :=
  let samples := pregenClamp samples0 s
  (pregenBulk (drainLoop samples s).1 (drainLoop samples s).2, samples)

/-- `pregenerate(uint32_t samples)` proper (the state effect). -/
def pregenerate (samples : Nat) (s : YmState) : YmState :=
  (pregenerateRun samples s).1

/-- `ym2151_interface::write(addr, value)`: while busy, either drop the
write with a warning (strict mode) or append it to the deferred queue;
otherwise deliver it to the tone engine immediately.  `strict` is the global
`YM_is_strict()` flag read inside the function. -/
def iface_write (strict : Bool) (addr value : Nat) (s : YmState) : YmState :=
  if ymfm_is_busy s then
    if strict then { s with warnings := s.warnings + 1 }
    else { s with write_queue := s.write_queue ++ [(addr, value)] }
  else
    chipWriteData value (chipWriteAddress addr s)

/-- `ym2151_interface::debug_write(addr, value)`: a direct engine write that
bypasses busy gating. -/
def iface_debug_write (addr value : Nat) (s : YmState) : YmState :=
  chipWriteData value (chipWriteAddress addr s)

/-- `ym2151_interface::debug_read(addr)`: reads the tone engine's own
register storage. -/
def iface_debug_read (addr : Nat) (s : YmState) : Nat :=
  s.chipRegs addr

/-- `ym2151_interface::generate(buffers, samples, sample_rate)` in the
active `YM2151_USE_R8BRAIN_RESAMPLING` configuration.  Returns the new state
together with the number of host-rate sample pairs written to the caller's
buffer on each stereo channel.  Leftover resampled samples are consumed from
the per-channel queues; the resampler processing loop of the source is
entirely commented out, so nothing else is written; finally `samples_used`
is read as `m_backbuffer_used`, making the trailing branch reset
`m_backbuffer_used` to 0. -/
def iface_generate (samples sample_rate : Nat) (s : YmState) : YmState × Nat × Nat :=
  let s := { s with prev_sample_rate := sample_rate }
  let done0 : Nat := min s.resampled0.length samples
  let done1 : Nat := min s.resampled1.length samples
  let s := { s with
    resampled0 := s.resampled0.drop done0
    resampled1 := s.resampled1.drop done1 }
  let output_samples_needed : Nat := samples - done0
  let orig_samples_needed : Nat :=
    uadd32 1 (u32 (output_samples_needed * s.chip_sample_rate) / sample_rate)
  let s :=
    if s.backbuffer_used < u32 orig_samples_needed
    then pregenerate (usub32 (u32 orig_samples_needed) s.backbuffer_used) s
    else s
  let samples_used := s.backbuffer_used
  let s :=
    if samples_used < s.backbuffer_used
    then { s with backbuffer_used := usub32 s.backbuffer_used (u32 samples) }
    else { s with backbuffer_used := 0 }
  (s, done0, done1)

/-- The file-scope globals of `ym2151.cpp`: the interface instance, the
two-phase port latches `Last_address`/`Last_data`, the register latch mirror
`Ym_registers`, the IRQ-enable and strict-busy flags, and the static
`clocks_elapsed` accumulator of `YM_prerender`. -/
structure YmGlobal where
  iface : YmState
  last_address : Nat
  last_data : Nat
  ym_registers : Nat → Nat
  ym_irq_enabled : Bool
  ym_strict_busy : Bool
  clocks_elapsed : Nat

/-- A fresh interface state with timer 0 armed for 100 clocks (as if the
tone engine had called `ymfm_set_timer(0, 100)`), used to exercise the
timer-expiration scenario. -/
def timerDemoState : YmState :=
  ymfm_set_timer 0 100 initialInterface

/-- The globals at program start (static storage is zero-initialized). -/
def initialGlobal : YmGlobal where
  iface := initialInterface
  last_address := 0
  last_data := 0
  ym_registers := fun _ => 0
  ym_irq_enabled := false
  ym_strict_busy := false
  clocks_elapsed := 0

/-- `YM_write(offset, value)`: an odd offset is the data port — record
`Last_data`, cache the value in the register latch at `Last_address`, and
submit the write to the interface; an even offset is the address port and
only latches `Last_address`. -/
def YM_write (offset value : Nat) (g : YmGlobal) : YmGlobal :=
  if offset % 2 = 1 then
    let g1 : YmGlobal :=
      { g with
        last_data := value
        ym_registers := fun a => if a = g.last_address then value else g.ym_registers a }
    { g1 with iface := iface_write g1.ym_strict_busy g1.last_address value g1.iface }
  else
    { g with last_address := value }

/-- `YM_debug_write(addr, value)`: update the register latch and do a direct
(busy-bypassing) engine write. -/
def YM_debug_write (addr value : Nat) (g : YmGlobal) : YmGlobal :=
  { g with
    ym_registers := fun a => if a = addr then value else g.ym_registers a
    iface := iface_debug_write addr value g.iface }

/-- `YM_debug_read(addr)`: returns `Ym_registers[addr]`. -/
def YM_debug_read (addr : Nat) (g : YmGlobal) : Nat :=
  g.ym_registers addr

/-- `YM_set_strict_busy(enable)`. -/
def YM_set_strict_busy (b : Bool) (g : YmGlobal) : YmGlobal :=
  { g with ym_strict_busy := b }

/-- The `samples_to_render` value computed inside `YM_prerender`:
`(clocks_elapsed + clocks) / clocks_per_sample`, with `clocks_per_sample =
8000000 / sample_rate`, all in `uint32_t`. -/
def samplesToRender (clocks : Nat) (g : YmGlobal) : Nat :=
  uadd32 g.clocks_elapsed clocks / (8000000 / g.iface.chip_sample_rate)

/-- `YM_prerender(clocks)`: accumulate elapsed system clocks (a `uint32_t`
static), convert whole multiples of `clocks_per_sample = 8000000 /
sample_rate` into a sample request handed to `pregenerate`, and keep the
fractional remainder.  Also reports the number of samples requested from
production on this call (`samples_to_render`; 0 when no production ran). -/
def YM_prerender (clocks : Nat) (g : YmGlobal) : YmGlobal × Nat :=
  if 0 < samplesToRender clocks g then
    ({ g with
        iface := pregenerate (samplesToRender clocks g) g.iface
        clocks_elapsed :=
          usub32 (uadd32 g.clocks_elapsed clocks)
            (u32 (samplesToRender clocks g * (8000000 / g.iface.chip_sample_rate))) },
     samplesToRender clocks g)
  else
    ({ g with clocks_elapsed := uadd32 g.clocks_elapsed clocks }, 0)

/-- `YM_render(buffer, samples, sample_rate)`: delegates to
`ym2151_interface::generate`; the two counters are the host-rate sample
pairs written for the left and right channel. -/
def YM_render (samples sample_rate : Nat) (g : YmGlobal) : YmGlobal × Nat × Nat :=
  let r := iface_generate samples sample_rate g.iface
  ({ g with iface := r.1 }, r.2)

/-- Public operations driving the globals, used to state reachability and
whole-system invariants. -/
inductive YmOp where
  | write (offset value : Nat)
  | debugWrite (addr value : Nat)
  | prerender (clocks : Nat)
  | render (samples sample_rate : Nat)
  | setStrict (b : Bool)
  | setBusyEnd (clocks : Nat)
  | setTimer (tnum : Nat) (d : Int)

/-- Apply one public operation to the globals. -/
def applyOp (op : YmOp) (g : YmGlobal) : YmGlobal :=
  match op with
  | .write offset value => YM_write offset value g
  | .debugWrite addr value => YM_debug_write addr value g
  | .prerender clocks => (YM_prerender clocks g).1
  | .render samples rate => (YM_render samples rate g).1
  | .setStrict b => YM_set_strict_busy b g
  | .setBusyEnd clocks => { g with iface := ymfm_set_busy_end clocks g.iface }
  | .setTimer tnum d => { g with iface := ymfm_set_timer tnum d g.iface }

/-- Run a list of public operations from left to right. -/
def runOps (ops : List YmOp) (g : YmGlobal) : YmGlobal :=
  ops.foldl (fun g op => applyOp op g) g

/-- Run `YM_prerender` over a list of per-call elapsed clock counts,
summing the sample counts requested from production. -/
def runPrerender : List Nat → YmGlobal → YmGlobal × Nat
  | [], g => (g, 0)
  | c :: cs, g =>
    let r := YM_prerender c g
    let rest := runPrerender cs r.1
    (rest.1, r.2 + rest.2)

/-!  Helper lemmas. -/

theorem usub32_eq_sub {a b : Nat} (hb : b ≤ a) (ha : a < 4294967296) :
    usub32 a b = a - b := by
  unfold usub32 u32
  omega

theorem uadd32_eq_add {a b : Nat} (h : a + b < 4294967296) :
    uadd32 a b = a + b := Nat.mod_eq_of_lt h

@[simp] theorem runAdvance_nil (s : YmState) : runAdvance [] s = s := rfl

@[simp] theorem runAdvance_cons (d : Int) (ds : List Int) (s : YmState) :
    runAdvance (d :: ds) s = runAdvance ds (clocksAdvance d s) := rfl

@[simp] theorem runClocks_nil (s : YmState) : runClocks [] s = s := rfl

@[simp] theorem runClocks_cons (c : Int) (cs : List Int) (s : YmState) :
    runClocks (c :: cs) s = runClocks cs (update_clocks c s) := rfl

theorem runClocks_eq_runAdvance (cs : List Int) (s : YmState) :
    runClocks cs s = runAdvance (cs.map (fun c => 64 * c)) s := by
  induction cs generalizing s with
  | nil => rfl
  | cons c cs ih => simp [update_clocks, ih]

@[simp] theorem clocksAdvance_timer0 (d : Int) (s : YmState) :
    (clocksAdvance d s).timer0 = timerNext d s.timer0 := rfl

@[simp] theorem clocksAdvance_timer1 (d : Int) (s : YmState) :
    (clocksAdvance d s).timer1 = timerNext d s.timer1 := rfl

theorem clocksAdvance_fired (d : Int) (s : YmState) :
    (clocksAdvance d s).fired
      = (if timerFires d s.timer0 then s.fired ++ [0] else s.fired)
        ++ (if timerFires d s.timer1 then [1] else []) := by
  unfold clocksAdvance
  by_cases h0 : timerFires d s.timer0 <;> by_cases h1 : timerFires d s.timer1 <;>
    simp [h0, h1]

theorem clocksAdvance_count0 (d : Int) (s : YmState) :
    ((clocksAdvance d s).fired).count 0
      = s.fired.count 0 + (if timerFires d s.timer0 then 1 else 0) := by
  rw [clocksAdvance_fired]
  by_cases h0 : timerFires d s.timer0 <;> by_cases h1 : timerFires d s.timer1 <;>
    simp [h0, h1, List.count_append]

theorem clocksAdvance_count1 (d : Int) (s : YmState) :
    ((clocksAdvance d s).fired).count 1
      = s.fired.count 1 + (if timerFires d s.timer1 then 1 else 0) := by
  rw [clocksAdvance_fired]
  by_cases h0 : timerFires d s.timer0 <;> by_cases h1 : timerFires d s.timer1 <;>
    simp [h0, h1, List.count_append]

theorem timerNext_of_nonpos {d t : Int} (h : t ≤ 0) : timerNext d t = t := by
  simp [timerNext, not_lt.mpr h]

theorem timerFires_of_nonpos {d t : Int} (h : t ≤ 0) : timerFires d t = false := by
  simp [timerFires, not_lt.mpr h]

theorem runAdvance_dead0 (ds : List Int) (s : YmState) (h : s.timer0 ≤ 0) :
    (runAdvance ds s).timer0 = s.timer0
    ∧ ((runAdvance ds s).fired).count 0 = s.fired.count 0 := by
  induction ds generalizing s with
  | nil => exact ⟨rfl, rfl⟩
  | cons d ds ih =>
    have ht : (clocksAdvance d s).timer0 = s.timer0 := by
      rw [clocksAdvance_timer0, timerNext_of_nonpos h]
    have hc : ((clocksAdvance d s).fired).count 0 = s.fired.count 0 := by
      rw [clocksAdvance_count0, timerFires_of_nonpos h]; simp
    obtain ⟨h1, h2⟩ := ih (clocksAdvance d s) (ht ▸ h)
    exact ⟨by rw [runAdvance_cons, h1, ht], by rw [runAdvance_cons, h2, hc]⟩

theorem runAdvance_dead1 (ds : List Int) (s : YmState) (h : s.timer1 ≤ 0) :
    (runAdvance ds s).timer1 = s.timer1
    ∧ ((runAdvance ds s).fired).count 1 = s.fired.count 1 := by
  induction ds generalizing s with
  | nil => exact ⟨rfl, rfl⟩
  | cons d ds ih =>
    have ht : (clocksAdvance d s).timer1 = s.timer1 := by
      rw [clocksAdvance_timer1, timerNext_of_nonpos h]
    have hc : ((clocksAdvance d s).fired).count 1 = s.fired.count 1 := by
      rw [clocksAdvance_count1, timerFires_of_nonpos h]; simp
    obtain ⟨h1, h2⟩ := ih (clocksAdvance d s) (ht ▸ h)
    exact ⟨by rw [runAdvance_cons, h1, ht], by rw [runAdvance_cons, h2, hc]⟩

theorem runAdvance_armed0 (ds : List Int) (s : YmState) (h : 0 < s.timer0)
    (hd : ∀ d ∈ ds, 0 ≤ d) :
    (runAdvance ds s).timer0 = max 0 (s.timer0 - ds.sum)
    ∧ ((runAdvance ds s).fired).count 0
        = s.fired.count 0 + (if s.timer0 ≤ ds.sum then 1 else 0) := by
  induction ds generalizing s with
  | nil =>
    refine ⟨?_, ?_⟩
    · simp [max_eq_right h.le]
    · simp [not_le.mpr h]
  | cons d ds ih =>
    have hd0 : 0 ≤ d := hd d (by simp)
    have hds : ∀ x ∈ ds, 0 ≤ x := fun x hx => hd x (by simp [hx])
    have hsum : 0 ≤ ds.sum := List.sum_nonneg hds
    by_cases hcross : s.timer0 ≤ d
    · have hfire : timerFires d s.timer0 = true := by
        simp only [timerFires, Bool.and_eq_true, decide_eq_true_eq]
        exact ⟨h, max_le le_rfl (by omega)⟩
      have ht : (clocksAdvance d s).timer0 = 0 := by
        rw [clocksAdvance_timer0]
        simp only [timerNext, if_pos h]
        exact max_eq_left (by omega)
      obtain ⟨h1, h2⟩ := runAdvance_dead0 ds (clocksAdvance d s) (le_of_eq ht)
      refine ⟨?_, ?_⟩
      · rw [runAdvance_cons, h1, ht, List.sum_cons]
        rw [max_eq_left (by omega)]
      · rw [runAdvance_cons, h2, clocksAdvance_count0, hfire, List.sum_cons]
        have hcond : s.timer0 ≤ d + ds.sum := by omega
        simp [hcond]
    · push_neg at hcross
      have hfire : timerFires d s.timer0 = false := by
        simp only [timerFires, Bool.and_eq_false_iff]
        right
        simp only [decide_eq_false_iff_not, not_le]
        calc (0:Int) < s.timer0 - d := by omega
          _ ≤ max 0 (s.timer0 - d) := le_max_right 0 _
      have ht : (clocksAdvance d s).timer0 = s.timer0 - d := by
        rw [clocksAdvance_timer0]
        simp only [timerNext, if_pos h]
        exact max_eq_right (by omega)
      obtain ⟨h1, h2⟩ := ih (clocksAdvance d s) (by rw [ht]; omega) hds
      refine ⟨?_, ?_⟩
      · rw [runAdvance_cons, h1, ht, List.sum_cons]
        congr 1
        omega
      · rw [runAdvance_cons, h2, clocksAdvance_count0, hfire, ht, List.sum_cons]
        have hcond : (s.timer0 - d ≤ ds.sum) ↔ (s.timer0 ≤ d + ds.sum) := by omega
        simp [hcond]

theorem runAdvance_armed1 (ds : List Int) (s : YmState) (h : 0 < s.timer1)
    (hd : ∀ d ∈ ds, 0 ≤ d) :
    (runAdvance ds s).timer1 = max 0 (s.timer1 - ds.sum)
    ∧ ((runAdvance ds s).fired).count 1
        = s.fired.count 1 + (if s.timer1 ≤ ds.sum then 1 else 0) := by
  induction ds generalizing s with
  | nil =>
    refine ⟨?_, ?_⟩
    · simp [max_eq_right h.le]
    · simp [not_le.mpr h]
  | cons d ds ih =>
    have hd0 : 0 ≤ d := hd d (by simp)
    have hds : ∀ x ∈ ds, 0 ≤ x := fun x hx => hd x (by simp [hx])
    have hsum : 0 ≤ ds.sum := List.sum_nonneg hds
    by_cases hcross : s.timer1 ≤ d
    · have hfire : timerFires d s.timer1 = true := by
        simp only [timerFires, Bool.and_eq_true, decide_eq_true_eq]
        exact ⟨h, max_le le_rfl (by omega)⟩
      have ht : (clocksAdvance d s).timer1 = 0 := by
        rw [clocksAdvance_timer1]
        simp only [timerNext, if_pos h]
        exact max_eq_left (by omega)
      obtain ⟨h1, h2⟩ := runAdvance_dead1 ds (clocksAdvance d s) (le_of_eq ht)
      refine ⟨?_, ?_⟩
      · rw [runAdvance_cons, h1, ht, List.sum_cons]
        rw [max_eq_left (by omega)]
      · rw [runAdvance_cons, h2, clocksAdvance_count1, hfire, List.sum_cons]
        have hcond : s.timer1 ≤ d + ds.sum := by omega
        simp [hcond]
    · push_neg at hcross
      have hfire : timerFires d s.timer1 = false := by
        simp only [timerFires, Bool.and_eq_false_iff]
        right
        simp only [decide_eq_false_iff_not, not_le]
        calc (0:Int) < s.timer1 - d := by omega
          _ ≤ max 0 (s.timer1 - d) := le_max_right 0 _
      have ht : (clocksAdvance d s).timer1 = s.timer1 - d := by
        rw [clocksAdvance_timer1]
        simp only [timerNext, if_pos h]
        exact max_eq_right (by omega)
      obtain ⟨h1, h2⟩ := ih (clocksAdvance d s) (by rw [ht]; omega) hds
      refine ⟨?_, ?_⟩
      · rw [runAdvance_cons, h1, ht, List.sum_cons]
        congr 1
        omega
      · rw [runAdvance_cons, h2, clocksAdvance_count1, hfire, ht, List.sum_cons]
        have hcond : (s.timer1 - d ≤ ds.sum) ↔ (s.timer1 ≤ d + ds.sum) := by omega
        simp [hcond]

@[simp] theorem clocksAdvance_backbuffer_used (d : Int) (s : YmState) :
    (clocksAdvance d s).backbuffer_used = s.backbuffer_used := rfl

@[simp] theorem clocksAdvance_backbuffer_size (d : Int) (s : YmState) :
    (clocksAdvance d s).backbuffer_size = s.backbuffer_size := rfl

@[simp] theorem clocksAdvance_write_queue (d : Int) (s : YmState) :
    (clocksAdvance d s).write_queue = s.write_queue := rfl

@[simp] theorem clocksAdvance_chip_sample_rate (d : Int) (s : YmState) :
    (clocksAdvance d s).chip_sample_rate = s.chip_sample_rate := rfl

theorem drainLoop_spec (m : Nat) (s : YmState)
    (h : s.backbuffer_used + m < 4294967296) :
    (drainLoop m s).1 = m - min m s.write_queue.length
    ∧ (drainLoop m s).2.backbuffer_used
        = s.backbuffer_used + min m s.write_queue.length
    ∧ (drainLoop m s).2.write_queue
        = s.write_queue.drop (min m s.write_queue.length)
    ∧ (drainLoop m s).2.backbuffer_size = s.backbuffer_size
    ∧ (drainLoop m s).2.chip_sample_rate = s.chip_sample_rate := by
  induction m generalizing s with
  | zero => simp [drainLoop]
  | succ m ih =>
    match hq : s.write_queue with
    | [] => simp [drainLoop, hq]
    | (a, v) :: rest =>
      have hused1 :
          (update_clocks0 (chipWriteData v (chipWriteAddress a s))).backbuffer_used
            = s.backbuffer_used := rfl
      have hqueue1 :
          (update_clocks0 (chipWriteData v (chipWriteAddress a s))).write_queue
            = s.write_queue := rfl
      set s3 : YmState :=
        { update_clocks0 (chipWriteData v (chipWriteAddress a s)) with
          backbuffer_used :=
            uadd32 (update_clocks0 (chipWriteData v (chipWriteAddress a s))).backbuffer_used 1
          write_queue := rest } with hs3
      have hstep : drainLoop (m + 1) s = drainLoop m s3 := by
        rw [drainLoop]
        rw [hq]
      have hused3 : s3.backbuffer_used = s.backbuffer_used + 1 := by
        rw [hs3]
        show uadd32 (update_clocks0 (chipWriteData v (chipWriteAddress a s))).backbuffer_used 1
          = s.backbuffer_used + 1
        rw [hused1]
        exact uadd32_eq_add (by omega)
      obtain ⟨h1, h2, h3, h4, h5⟩ := ih s3 (by rw [hused3]; omega)
      have hq3 : s3.write_queue = rest := rfl
      refine ⟨?_, ?_, ?_, ?_, ?_⟩
      · rw [hstep, h1, hq3]
        simp only [List.length_cons, Nat.succ_min_succ]
        omega
      · rw [hstep, h2, hq3, hused3]
        simp only [List.length_cons, Nat.succ_min_succ]
        omega
      · rw [hstep, h3, hq3]
        simp only [List.length_cons, Nat.succ_min_succ, List.drop_succ_cons]
      · rw [hstep, h4]
        rfl
      · rw [hstep, h5]
        rfl

theorem drainLoop_chip_sample_rate (m : Nat) (s : YmState) :
    (drainLoop m s).2.chip_sample_rate = s.chip_sample_rate := by
  induction m generalizing s with
  | zero => rfl
  | succ m ih =>
    match hq : s.write_queue with
    | [] => simp [drainLoop, hq]
    | (a, v) :: rest =>
      have hstep : drainLoop (m + 1) s =
          drainLoop m
            { update_clocks0 (chipWriteData v (chipWriteAddress a s)) with
              backbuffer_used :=
                uadd32 (update_clocks0 (chipWriteData v (chipWriteAddress a s))).backbuffer_used 1
              write_queue := rest } := by
        rw [drainLoop]
        rw [hq]
      rw [hstep, ih]
      rfl

theorem pregenBulk_chip_sample_rate (r : Nat) (s : YmState) :
    (pregenBulk r s).chip_sample_rate = s.chip_sample_rate := by
  unfold pregenBulk
  split <;> rfl

theorem pregenBulk_backbuffer_used (r : Nat) (s : YmState) :
    (pregenBulk r s).backbuffer_used
      = if 0 < r then uadd32 s.backbuffer_used r else s.backbuffer_used := by
  unfold pregenBulk
  split
  · simp [*]
    rfl
  · simp [*]

theorem pregenBulk_backbuffer_size (r : Nat) (s : YmState) :
    (pregenBulk r s).backbuffer_size = s.backbuffer_size := by
  unfold pregenBulk
  split <;> rfl

theorem pregenerateRun_chip_sample_rate (n : Nat) (s : YmState) :
    (pregenerateRun n s).1.chip_sample_rate = s.chip_sample_rate := by
  unfold pregenerateRun
  rw [pregenBulk_chip_sample_rate, drainLoop_chip_sample_rate]

theorem pregenClamp_eq_min (s : YmState) (n : Nat)
    (hinv : s.backbuffer_used ≤ s.backbuffer_size)
    (hsize : s.backbuffer_size < 4294967296)
    (hn : s.backbuffer_used + n < 4294967296) :
    pregenClamp n s = min n (s.backbuffer_size - s.backbuffer_used) := by
  unfold pregenClamp
  rw [uadd32_eq_add hn]
  split
  next hlt =>
    rw [usub32_eq_sub hinv (by omega)]
    omega
  next hge =>
    unfold u32
    omega

theorem pregenerate_backbuffer_used (s : YmState) (n : Nat)
    (hinv : s.backbuffer_used ≤ s.backbuffer_size)
    (hsize : s.backbuffer_size < 4294967296)
    (hn : s.backbuffer_used + n < 4294967296) :
    (pregenerate n s).backbuffer_used
      = s.backbuffer_used + min n (s.backbuffer_size - s.backbuffer_used) := by
  have hclamp := pregenClamp_eq_min s n hinv hsize hn
  have hmle : pregenClamp n s ≤ s.backbuffer_size - s.backbuffer_used := by
    rw [hclamp]; omega
  obtain ⟨hd1, hd2, hd3, hd4, hd5⟩ :=
    drainLoop_spec (pregenClamp n s) s (by omega)
  have hkle : min (pregenClamp n s) s.write_queue.length ≤ pregenClamp n s :=
    Nat.min_le_left _ _
  show (pregenBulk (drainLoop (pregenClamp n s) s).1
      (drainLoop (pregenClamp n s) s).2).backbuffer_used = _
  rw [pregenBulk_backbuffer_used, hd1, hd2]
  split
  next hpos =>
    rw [uadd32_eq_add (by omega)]
    omega
  next hzero =>
    omega

/-- Claim C7 (amended): in the absence of `uint32_t` overflow in the clamp
check — that is, whenever `used + n < 2^32` — `pregenerate(n)` clamps the
request to the remaining capacity before generating: it hands exactly
`min n (capacity - used)` samples to the tone engine, `used` grows by
exactly that count and stays `≤ capacity`, and when the buffer is already
full nothing is generated.  (Without the overflow hypothesis the clamp can
be bypassed; see the counterexample.) -/
theorem produce_clamped_by_capacity (s : YmState) (n : Nat)
    (hinv : s.backbuffer_used ≤ s.backbuffer_size)
    (hsize : s.backbuffer_size < 4294967296)
    (hn : s.backbuffer_used + n < 4294967296) :
    (pregenerateRun n s).2 = min n (s.backbuffer_size - s.backbuffer_used)
    ∧ (pregenerate n s).backbuffer_used
        = s.backbuffer_used + min n (s.backbuffer_size - s.backbuffer_used)
    ∧ (pregenerate n s).backbuffer_used ≤ s.backbuffer_size
    ∧ (s.backbuffer_used = s.backbuffer_size →
        (pregenerateRun n s).2 = 0
        ∧ (pregenerate n s).backbuffer_used = s.backbuffer_used) := by
  have hclamp := pregenClamp_eq_min s n hinv hsize hn
  have hused := pregenerate_backbuffer_used s n hinv hsize hn
  have hrun2 : (pregenerateRun n s).2 = pregenClamp n s := rfl
  refine ⟨by rw [hrun2, hclamp], hused, by omega, fun hfull => ⟨?_, ?_⟩⟩
  · rw [hrun2, hclamp, hfull]
    omega
  · rw [hused, hfull]
    omega

/-- Claim C7 counterexample: from the reachable state with one sample in
the backbuffer, a request of `2^32 - 1` samples wraps the `uint32_t` sum in
the clamp check (`1 + (2^32 - 1) ≡ 0 ≤ capacity`), so the clamp is bypassed:
the code hands all `2^32 - 1` samples to `m_chip.generate` — far more than
the remaining capacity of 62499 — and the used count wraps to 0 instead of
being capped at the capacity 62500. -/
theorem produce_clamp_overflow_bypass :
    (pregenerate 1 initialInterface).backbuffer_used = 1
    ∧ (pregenerateRun 4294967295 (pregenerate 1 initialInterface)).2 = 4294967295
    ∧ min 4294967295
        (initialInterface.backbuffer_size
          - (pregenerate 1 initialInterface).backbuffer_used) = 62499
    ∧ (4294967295 : Nat) ≠ 62499
    ∧ (pregenerateRun 4294967295 (pregenerate 1 initialInterface)).1.backbuffer_used = 0
    ∧ (0 : Nat) ≠ 1 + 62499 := by
  refine ⟨rfl, rfl, rfl, by decide, rfl, by decide⟩

theorem sub_div_mul_eq_mod (a b : Nat) : a - (a / b) * b = a % b := by
  have h := Nat.div_add_mod a b
  have hc : b * (a / b) = (a / b) * b := Nat.mul_comm _ _
  omega

@[simp] theorem runPrerender_nil (g : YmGlobal) : runPrerender [] g = (g, 0) := rfl

@[simp] theorem runPrerender_cons (c : Nat) (cs : List Nat) (g : YmGlobal) :
    runPrerender (c :: cs) g
      = ((runPrerender cs (YM_prerender c g).1).1,
         (YM_prerender c g).2 + (runPrerender cs (YM_prerender c g).1).2) := rfl

theorem YM_prerender_spec (g : YmGlobal) (c : Nat)
    (hlt : g.clocks_elapsed + c < 4294967296) :
    (YM_prerender c g).2
      = (g.clocks_elapsed + c) / (8000000 / g.iface.chip_sample_rate)
    ∧ (YM_prerender c g).1.clocks_elapsed
      = (if 0 < (g.clocks_elapsed + c) / (8000000 / g.iface.chip_sample_rate)
        then (g.clocks_elapsed + c) % (8000000 / g.iface.chip_sample_rate)
        else g.clocks_elapsed + c)
    ∧ (YM_prerender c g).1.iface.chip_sample_rate = g.iface.chip_sample_rate := by
  have he : uadd32 g.clocks_elapsed c = g.clocks_elapsed + c := uadd32_eq_add hlt
  have hn : samplesToRender c g
      = (g.clocks_elapsed + c) / (8000000 / g.iface.chip_sample_rate) := by
    rw [samplesToRender, he]
  by_cases hpos : 0 < samplesToRender c g
  · have hmul : samplesToRender c g * (8000000 / g.iface.chip_sample_rate)
        ≤ g.clocks_elapsed + c := by
      rw [hn]
      exact Nat.div_mul_le_self _ _
    have hu : u32 (samplesToRender c g * (8000000 / g.iface.chip_sample_rate))
        = samplesToRender c g * (8000000 / g.iface.chip_sample_rate) :=
      Nat.mod_eq_of_lt (by omega)
    simp only [YM_prerender, if_pos hpos]
    refine ⟨hn, ?_, pregenerateRun_chip_sample_rate _ _⟩
    rw [he, hu, usub32_eq_sub hmul (by omega), hn, if_pos (hn ▸ hpos),
      sub_div_mul_eq_mod]
  · simp only [YM_prerender, if_neg hpos]
    refine ⟨by omega, ?_, trivial⟩
    rw [he, if_neg (hn ▸ hpos)]

/-- Claim C8 (amended): starting from a remainder smaller than
`clocks_per_sample` (in particular from the initial state, where it is 0),
and provided the cumulative clock total stays below 2^32 (the width of the
`uint32_t` accumulator `clocks_elapsed`), any sequence of `YM_prerender`
calls requests exactly `floor((remainder + c1 + ... + ck) / clocks_per_sample)`
native-rate samples from production in total — the same as a single call
with the summed clocks — and the final carried remainder is the exact
modulus, so no drift accumulates.  (Without the 2^32 bound the accumulator
wraps; see the counterexample.) -/
theorem prerender_carries_remainder_exactly (g : YmGlobal) (cs : List Nat)
    (hcps : 0 < 8000000 / g.iface.chip_sample_rate)
    (hr : g.clocks_elapsed < 8000000 / g.iface.chip_sample_rate)
    (hsum : g.clocks_elapsed + cs.sum < 4294967296) :
    (runPrerender cs g).2
      = (g.clocks_elapsed + cs.sum) / (8000000 / g.iface.chip_sample_rate)
    ∧ (runPrerender cs g).1.clocks_elapsed
      = (g.clocks_elapsed + cs.sum) % (8000000 / g.iface.chip_sample_rate) := by
  induction cs generalizing g with
  | nil =>
    refine ⟨?_, ?_⟩
    · simp [Nat.div_eq_of_lt hr]
    · simp [Nat.mod_eq_of_lt hr]
  | cons c cs ih =>
    have hsc : (c :: cs).sum = c + cs.sum := by simp
    obtain ⟨hn, hrem, hrate⟩ := YM_prerender_spec g c (by omega)
    set g1 := (YM_prerender c g).1 with hg1
    have hcps1 : 0 < 8000000 / g1.iface.chip_sample_rate := by rw [hrate]; exact hcps
    have hrem1 : g1.clocks_elapsed = (g.clocks_elapsed + c) % (8000000 / g.iface.chip_sample_rate) := by
      rw [hrem]
      split
      next => rfl
      next hz =>
        have : (g.clocks_elapsed + c) < 8000000 / g.iface.chip_sample_rate := by
          by_contra hcon
          exact hz (Nat.div_pos (le_of_not_lt hcon) hcps)
        exact (Nat.mod_eq_of_lt this).symm
    have hr1 : g1.clocks_elapsed < 8000000 / g1.iface.chip_sample_rate := by
      rw [hrate, hrem1]
      exact Nat.mod_lt _ hcps
    have hmodle : (g.clocks_elapsed + c) % (8000000 / g.iface.chip_sample_rate)
        ≤ g.clocks_elapsed + c := Nat.mod_le _ _
    have hsum1 : g1.clocks_elapsed + cs.sum < 4294967296 := by
      rw [hrem1]
      omega
    obtain ⟨ih1, ih2⟩ := ih g1 hcps1 hr1 hsum1
    rw [hrate] at ih1 ih2
    set cps := 8000000 / g.iface.chip_sample_rate with hcpsdef
    have hkey : ∀ a b : Nat, (a % cps + b) / cps + a / cps = (a + b) / cps
        ∧ (a % cps + b) % cps = (a + b) % cps := by
      intro a b
      constructor
      · conv_rhs => rw [← Nat.div_add_mod a cps, Nat.add_assoc,
          Nat.mul_add_div hcps]
        omega
      · conv_rhs => rw [← Nat.div_add_mod a cps, Nat.add_assoc,
          Nat.mul_add_mod]
    refine ⟨?_, ?_⟩
    · rw [runPrerender_cons, hn, ih1, hrem1, hsc, ← Nat.add_assoc]
      have := (hkey (g.clocks_elapsed + c) cs.sum).1
      omega
    · rw [runPrerender_cons, ih2, hrem1, hsc, ← Nat.add_assoc]
      have := (hkey (g.clocks_elapsed + c) cs.sum).2
      omega

/-- Witness for the amended C8 theorem at the initial state with elapsed
clock counts 1000 and 500 (`clocks_per_sample` is 128): exactly
`floor(1500 / 128) = 11` samples are requested in total and the carried
remainder is `1500 mod 128 = 92`. -/
theorem prerender_carries_remainder_exactly_witness :
    (0 < 8000000 / initialGlobal.iface.chip_sample_rate
      ∧ initialGlobal.clocks_elapsed < 8000000 / initialGlobal.iface.chip_sample_rate
      ∧ initialGlobal.clocks_elapsed + ([1000, 500] : List Nat).sum < 4294967296)
    ∧ ((runPrerender [1000, 500] initialGlobal).2
        = (initialGlobal.clocks_elapsed + ([1000, 500] : List Nat).sum)
          / (8000000 / initialGlobal.iface.chip_sample_rate)
      ∧ (runPrerender [1000, 500] initialGlobal).1.clocks_elapsed
        = (initialGlobal.clocks_elapsed + ([1000, 500] : List Nat).sum)
          % (8000000 / initialGlobal.iface.chip_sample_rate)) :=
  ⟨⟨by decide, by decide, by decide⟩,
   prerender_carries_remainder_exactly initialGlobal [1000, 500]
     (by decide) (by decide) (by decide)⟩

/-- Claim C8 counterexample: two `YM_prerender` calls of `2^32 - 1` elapsed
clocks each request 33554431 samples in total (the second call's
accumulation wraps the `uint32_t` static `clocks_elapsed`), while the
claimed total `floor((c1 + c2) / clocks_per_sample)` is 67108863. -/
theorem prerender_accumulator_wraps :
    (runPrerender [4294967295, 4294967295] initialGlobal).2 = 33554431
    ∧ (((4294967295 : Nat) + 4294967295)
        / (8000000 / initialGlobal.iface.chip_sample_rate)) = 67108863
    ∧ (33554431 : Nat) ≠ 67108863 := by
  refine ⟨rfl, rfl, by decide⟩

/-- Witness for the amended C7 theorem: producing 3 samples from the fresh
interface generates exactly 3 samples and raises the used count to 3. -/
theorem produce_clamped_by_capacity_witness :
    (initialInterface.backbuffer_used ≤ initialInterface.backbuffer_size
      ∧ initialInterface.backbuffer_size < 4294967296
      ∧ initialInterface.backbuffer_used + 3 < 4294967296)
    ∧ ((pregenerateRun 3 initialInterface).2
        = min 3 (initialInterface.backbuffer_size - initialInterface.backbuffer_used)
      ∧ (pregenerate 3 initialInterface).backbuffer_used
          = initialInterface.backbuffer_used
            + min 3 (initialInterface.backbuffer_size - initialInterface.backbuffer_used)
      ∧ (pregenerate 3 initialInterface).backbuffer_used
          ≤ initialInterface.backbuffer_size
      ∧ (initialInterface.backbuffer_used = initialInterface.backbuffer_size →
          (pregenerateRun 3 initialInterface).2 = 0
          ∧ (pregenerate 3 initialInterface).backbuffer_used
              = initialInterface.backbuffer_used)) :=
  ⟨⟨by decide, by decide, by decide⟩,
   produce_clamped_by_capacity initialInterface 3 (by decide) (by decide) (by decide)⟩

/-- Claim C3: the two `update_clocks` overloads share the decrement body
`clocksAdvance` (the no-argument one uses 64 clocks, the other `64 * cycles`),
and for each armed timer, over any sequence of advances with nonnegative
decrements, after any prefix of `k` calls the counter equals the running
total clamped at 0 and the number of `engine_timer_expired` callbacks for
that timer has grown by exactly 1 if the running decrement total has
reached the armed value and by 0 otherwise — so the callback fires exactly
once, on the advance call whose decrement makes the counter cross to `≤ 0`,
stays clamped at 0 afterwards, and never fires again until rearmed. -/
theorem timer_expiration_fires_once_at_crossing (s : YmState) (ds : List Int)
    (hd : ∀ d ∈ ds, 0 ≤ d) :
    (∀ c : Int, ∀ t : YmState, update_clocks c t = clocksAdvance (64 * c) t)
    ∧ (0 < s.timer0 → ∀ k ≤ ds.length,
        (runAdvance (ds.take k) s).timer0 = max 0 (s.timer0 - (ds.take k).sum)
        ∧ ((runAdvance (ds.take k) s).fired).count 0
            = s.fired.count 0 + (if s.timer0 ≤ (ds.take k).sum then 1 else 0))
    ∧ (0 < s.timer1 → ∀ k ≤ ds.length,
        (runAdvance (ds.take k) s).timer1 = max 0 (s.timer1 - (ds.take k).sum)
        ∧ ((runAdvance (ds.take k) s).fired).count 1
            = s.fired.count 1 + (if s.timer1 ≤ (ds.take k).sum then 1 else 0)) := by
  refine ⟨fun _ _ => rfl, ?_, ?_⟩
  · intro h k _
    exact runAdvance_armed0 (ds.take k) s h
      (fun d hm => hd d (List.take_subset k ds hm))
  · intro h k _
    exact runAdvance_armed1 (ds.take k) s h
      (fun d hm => hd d (List.take_subset k ds hm))

/-- Witness for C3 at the spec's concrete scenario: timer 0 armed for 100
clocks, three advances of 40 clocks each; the instantiated theorem yields
that the callback count rises from 0 to 1 exactly at the third call
(40 < 100, 80 < 100, 100 ≤ 120) and that the counter ends clamped at 0. -/
theorem timer_expiration_fires_once_at_crossing_witness :
    (∀ d ∈ ([40, 40, 40] : List Int), 0 ≤ d)
    ∧ ((∀ c : Int, ∀ t : YmState, update_clocks c t = clocksAdvance (64 * c) t)
      ∧ (0 < timerDemoState.timer0 → ∀ k ≤ ([40, 40, 40] : List Int).length,
          (runAdvance (([40, 40, 40] : List Int).take k) timerDemoState).timer0
            = max 0 (timerDemoState.timer0 - (([40, 40, 40] : List Int).take k).sum)
          ∧ ((runAdvance (([40, 40, 40] : List Int).take k) timerDemoState).fired).count 0
              = timerDemoState.fired.count 0
                + (if timerDemoState.timer0 ≤ (([40, 40, 40] : List Int).take k).sum
                   then 1 else 0))
      ∧ (0 < timerDemoState.timer1 → ∀ k ≤ ([40, 40, 40] : List Int).length,
          (runAdvance (([40, 40, 40] : List Int).take k) timerDemoState).timer1
            = max 0 (timerDemoState.timer1 - (([40, 40, 40] : List Int).take k).sum)
          ∧ ((runAdvance (([40, 40, 40] : List Int).take k) timerDemoState).fired).count 1
              = timerDemoState.fired.count 1
                + (if timerDemoState.timer1 ≤ (([40, 40, 40] : List Int).take k).sum
                   then 1 else 0))) :=
  ⟨by decide,
   timer_expiration_fires_once_at_crossing timerDemoState [40, 40, 40] (by decide)⟩

/-- Claim C10: arming a timer with duration 0 stores counter 0, and since
the decrement-and-fire path only runs while the counter is strictly
positive, no subsequent sequence of `update_clocks` calls ever fires the
expiration callback for that timer (its count in the `fired` trace is
unchanged) and the counter stays 0. -/
theorem zero_duration_timer_never_fires (s : YmState) (cs : List Int) :
    ((ymfm_set_timer 0 0 s).timer0 = 0
      ∧ (runClocks cs (ymfm_set_timer 0 0 s)).timer0 = 0
      ∧ ((runClocks cs (ymfm_set_timer 0 0 s)).fired).count 0 = s.fired.count 0)
    ∧ ((ymfm_set_timer 1 0 s).timer1 = 0
      ∧ (runClocks cs (ymfm_set_timer 1 0 s)).timer1 = 0
      ∧ ((runClocks cs (ymfm_set_timer 1 0 s)).fired).count 1 = s.fired.count 1) := by
  have h0 : (ymfm_set_timer 0 0 s).timer0 = 0 := rfl
  have h1 : (ymfm_set_timer 1 0 s).timer1 = 0 := rfl
  have hf0 : (ymfm_set_timer 0 0 s).fired = s.fired := rfl
  have hf1 : (ymfm_set_timer 1 0 s).fired = s.fired := rfl
  obtain ⟨ha0, hb0⟩ := runAdvance_dead0 (cs.map (fun c => 64 * c))
    (ymfm_set_timer 0 0 s) (le_of_eq h0)
  obtain ⟨ha1, hb1⟩ := runAdvance_dead1 (cs.map (fun c => 64 * c))
    (ymfm_set_timer 1 0 s) (le_of_eq h1)
  rw [runClocks_eq_runAdvance, runClocks_eq_runAdvance]
  exact ⟨⟨h0, by rw [ha0, h0], by rw [hb0, hf0]⟩,
         ⟨h1, by rw [ha1, h1], by rw [hb1, hf1]⟩⟩

/-- Claim C4: a data-port write (odd offset) submitted through the register
write path is busy-gated: when the chip is not busy it is applied
immediately to the tone engine and cached in the register latch; when busy
in strict-timing mode it is dropped (neither queued nor applied to the
engine) and a warning is reported; when busy in non-strict mode it is
appended to the deferred write queue (and not applied to the engine yet). -/
theorem busy_gated_write_submission (g : YmGlobal) (offset v : Nat)
    (hodd : offset % 2 = 1) :
    (g.iface.busy_timer ≤ 0 →
        (YM_write offset v g).iface.chipWrites
          = g.iface.chipWrites ++ [(g.last_address, v)]
        ∧ (YM_write offset v g).iface.chipRegs g.last_address = v
        ∧ (YM_write offset v g).ym_registers g.last_address = v
        ∧ (YM_write offset v g).iface.write_queue = g.iface.write_queue
        ∧ (YM_write offset v g).iface.warnings = g.iface.warnings)
    ∧ (0 < g.iface.busy_timer → g.ym_strict_busy = true →
        (YM_write offset v g).iface.chipWrites = g.iface.chipWrites
        ∧ (YM_write offset v g).iface.write_queue = g.iface.write_queue
        ∧ (YM_write offset v g).iface.warnings = g.iface.warnings + 1)
    ∧ (0 < g.iface.busy_timer → g.ym_strict_busy = false →
        (YM_write offset v g).iface.write_queue
          = g.iface.write_queue ++ [(g.last_address, v)]
        ∧ (YM_write offset v g).iface.chipWrites = g.iface.chipWrites
        ∧ (YM_write offset v g).iface.warnings = g.iface.warnings) := by
  refine ⟨?_, ?_, ?_⟩
  · intro hnb
    have hbusy : ymfm_is_busy g.iface = false := by
      simp only [ymfm_is_busy, decide_eq_false_iff_not, not_lt]
      exact hnb
    simp [YM_write, hodd, iface_write, hbusy, chipWriteData, chipWriteAddress]
  · intro hb hs
    have hbusy : ymfm_is_busy g.iface = true := by
      simp only [ymfm_is_busy, decide_eq_true_eq]
      exact hb
    simp [YM_write, hodd, iface_write, hbusy, hs]
  · intro hb hs
    have hbusy : ymfm_is_busy g.iface = true := by
      simp only [ymfm_is_busy, decide_eq_true_eq]
      exact hb
    simp [YM_write, hodd, iface_write, hbusy, hs]

/-- Witness for C4 at a reachable busy, strict-mode state (busy window of 32
clocks, address port latched to 8): the data-port write of 85 is dropped
with a warning. -/
theorem busy_gated_write_submission_witness :
    ((1 : Nat) % 2 = 1)
    ∧ (((runOps [.setStrict true, .setBusyEnd 32, .write 0 8] initialGlobal).iface.busy_timer ≤ 0 →
        (YM_write 1 85 (runOps [.setStrict true, .setBusyEnd 32, .write 0 8] initialGlobal)).iface.chipWrites
          = (runOps [.setStrict true, .setBusyEnd 32, .write 0 8] initialGlobal).iface.chipWrites
            ++ [((runOps [.setStrict true, .setBusyEnd 32, .write 0 8] initialGlobal).last_address, 85)]
        ∧ (YM_write 1 85 (runOps [.setStrict true, .setBusyEnd 32, .write 0 8] initialGlobal)).iface.chipRegs
            (runOps [.setStrict true, .setBusyEnd 32, .write 0 8] initialGlobal).last_address = 85
        ∧ (YM_write 1 85 (runOps [.setStrict true, .setBusyEnd 32, .write 0 8] initialGlobal)).ym_registers
            (runOps [.setStrict true, .setBusyEnd 32, .write 0 8] initialGlobal).last_address = 85
        ∧ (YM_write 1 85 (runOps [.setStrict true, .setBusyEnd 32, .write 0 8] initialGlobal)).iface.write_queue
          = (runOps [.setStrict true, .setBusyEnd 32, .write 0 8] initialGlobal).iface.write_queue
        ∧ (YM_write 1 85 (runOps [.setStrict true, .setBusyEnd 32, .write 0 8] initialGlobal)).iface.warnings
          = (runOps [.setStrict true, .setBusyEnd 32, .write 0 8] initialGlobal).iface.warnings)
    ∧ (0 < (runOps [.setStrict true, .setBusyEnd 32, .write 0 8] initialGlobal).iface.busy_timer →
        (runOps [.setStrict true, .setBusyEnd 32, .write 0 8] initialGlobal).ym_strict_busy = true →
        (YM_write 1 85 (runOps [.setStrict true, .setBusyEnd 32, .write 0 8] initialGlobal)).iface.chipWrites
          = (runOps [.setStrict true, .setBusyEnd 32, .write 0 8] initialGlobal).iface.chipWrites
        ∧ (YM_write 1 85 (runOps [.setStrict true, .setBusyEnd 32, .write 0 8] initialGlobal)).iface.write_queue
          = (runOps [.setStrict true, .setBusyEnd 32, .write 0 8] initialGlobal).iface.write_queue
        ∧ (YM_write 1 85 (runOps [.setStrict true, .setBusyEnd 32, .write 0 8] initialGlobal)).iface.warnings
          = (runOps [.setStrict true, .setBusyEnd 32, .write 0 8] initialGlobal).iface.warnings + 1)
    ∧ (0 < (runOps [.setStrict true, .setBusyEnd 32, .write 0 8] initialGlobal).iface.busy_timer →
        (runOps [.setStrict true, .setBusyEnd 32, .write 0 8] initialGlobal).ym_strict_busy = false →
        (YM_write 1 85 (runOps [.setStrict true, .setBusyEnd 32, .write 0 8] initialGlobal)).iface.write_queue
          = (runOps [.setStrict true, .setBusyEnd 32, .write 0 8] initialGlobal).iface.write_queue
            ++ [((runOps [.setStrict true, .setBusyEnd 32, .write 0 8] initialGlobal).last_address, 85)]
        ∧ (YM_write 1 85 (runOps [.setStrict true, .setBusyEnd 32, .write 0 8] initialGlobal)).iface.chipWrites
          = (runOps [.setStrict true, .setBusyEnd 32, .write 0 8] initialGlobal).iface.chipWrites
        ∧ (YM_write 1 85 (runOps [.setStrict true, .setBusyEnd 32, .write 0 8] initialGlobal)).iface.warnings
          = (runOps [.setStrict true, .setBusyEnd 32, .write 0 8] initialGlobal).iface.warnings)) :=
  ⟨by decide,
   busy_gated_write_submission
     (runOps [.setStrict true, .setBusyEnd 32, .write 0 8] initialGlobal) 1 85 (by decide)⟩

/-- Claim C5 counterexample: with strict-timing mode on and the chip busy
(busy window 32 clocks), a data-port write of 85 to address 8 is dropped —
no write is ever delivered to the tone engine (`chipWrites` stays empty and
a warning is counted) — yet the register latch entry for address 8 becomes
85 instead of keeping the value 0 of the (nonexistent) most recent
successful write. -/
theorem latch_holds_dropped_write :
    (runOps [.setStrict true, .setBusyEnd 32, .write 0 8, .write 1 85]
        initialGlobal).iface.chipWrites = []
    ∧ (runOps [.setStrict true, .setBusyEnd 32, .write 0 8, .write 1 85]
        initialGlobal).iface.warnings = 1
    ∧ (runOps [.setStrict true, .setBusyEnd 32, .write 0 8, .write 1 85]
        initialGlobal).ym_registers 8 = 85
    ∧ initialGlobal.ym_registers 8 = 0
    ∧ (85 : Nat) ≠ 0 := by
  refine ⟨rfl, rfl, rfl, rfl, by decide⟩

/-- Claim C5 (amended): each register latch entry equals the value of the
most recent write *submitted* to that address — through the data port (at
the currently latched address) or the debug write path — regardless of
whether that write was applied to the tone engine, queued, or dropped; no
other public operation changes the latch.  Formally, one public operation
changes the latch exactly as follows. -/
theorem latch_tracks_last_submitted_write (g : YmGlobal) (op : YmOp) (a : Nat) :
    (applyOp op g).ym_registers a =
      (match op with
       | .write offset value =>
         if offset % 2 = 1 ∧ a = g.last_address then value else g.ym_registers a
       | .debugWrite addr value =>
         if a = addr then value else g.ym_registers a
       | _ => g.ym_registers a) := by
  cases op with
  | write offset value =>
    by_cases ho : offset % 2 = 1
    · simp [applyOp, YM_write, ho]
    · simp [applyOp, YM_write, ho]
  | debugWrite addr value => simp [applyOp, YM_debug_write]
  | prerender clocks =>
    simp only [applyOp]
    unfold YM_prerender
    split <;> rfl
  | render samples rate => rfl
  | setStrict b => rfl
  | setBusyEnd clocks => rfl
  | setTimer tnum d => rfl

/-- Claim C6 counterexample: after a write submitted while busy in
non-strict mode, the pair (8, 85) sits in the deferred queue and has not
reached the tone engine, whose register storage still holds 0 at address 8;
the public `YM_debug_read` nevertheless returns 85 — the register latch
mirror's entry, not the engine storage value. -/
theorem debug_read_not_engine_storage :
    YM_debug_read 8 (runOps [.setBusyEnd 32, .write 0 8, .write 1 85] initialGlobal) = 85
    ∧ iface_debug_read 8
        (runOps [.setBusyEnd 32, .write 0 8, .write 1 85] initialGlobal).iface = 0
    ∧ (runOps [.setBusyEnd 32, .write 0 8, .write 1 85] initialGlobal).iface.write_queue
        = [(8, 85)]
    ∧ (85 : Nat) ≠ 0 := by
  refine ⟨rfl, rfl, rfl, by decide⟩

/-- Claim C6 (amended): the public debug read operation `YM_debug_read`
returns the register latch mirror's entry for the address, not the tone
engine's own register storage (the interface-level `debug_read`, which does
read the engine, is not used by the public path); the two agree immediately
after a debug write, which updates both. -/
theorem debug_read_returns_latch :
    (∀ g : YmGlobal, ∀ a : Nat, YM_debug_read a g = g.ym_registers a)
    ∧ (∀ g : YmGlobal, ∀ a v : Nat,
        YM_debug_read a (YM_debug_write a v g) = v
        ∧ iface_debug_read a (YM_debug_write a v g).iface = v) := by
  refine ⟨fun g a => rfl, fun g a v => ⟨?_, ?_⟩⟩
  · simp [YM_debug_read, YM_debug_write]
  · simp [iface_debug_read, YM_debug_write, iface_debug_write, chipWriteData,
      chipWriteAddress]

/-- Claim C1 (code bug): the active r8brain render path never writes the
requested host-rate samples to the caller's buffer: from the initial state,
a render request for 1000 samples at 44100 Hz writes 0 sample pairs on each
stereo channel (the resampler processing loop in the source is commented
out and the leftover queues are never refilled), not the 1000 the claim
requires — and the 1417 native samples generated for it are discarded. -/
theorem render_delivers_no_samples :
    (YM_render 1000 44100 initialGlobal).2.1 = 0
    ∧ (YM_render 1000 44100 initialGlobal).2.2 = 0
    ∧ (1000 : Nat) ≠ 0
    ∧ (YM_render 1000 44100 initialGlobal).1.iface.backbuffer_used = 0 := by
  refine ⟨rfl, rfl, by decide, rfl⟩

/-- Claim C2 (code bug): the single-sample production step `pregenerate()`
applies the front queued write without popping it: after queueing one write
(8, 85) while busy (non-strict), two single-sample production steps deliver
that same pending write to the tone engine twice, and it still sits in the
queue afterwards — contradicting "consumed exactly once". -/
theorem single_sample_production_reapplies_front_write :
    (runOps [.setBusyEnd 32, .write 0 8, .write 1 85] initialGlobal).iface.write_queue
        = [(8, 85)]
    ∧ (pregenerate0 (pregenerate0
        (runOps [.setBusyEnd 32, .write 0 8, .write 1 85] initialGlobal).iface)).chipWrites
        = [(8, 85), (8, 85)]
    ∧ (pregenerate0 (pregenerate0
        (runOps [.setBusyEnd 32, .write 0 8, .write 1 85] initialGlobal).iface)).write_queue
        = [(8, 85)] := by
  refine ⟨rfl, rfl, rfl⟩

/-- Claim C9 (code bug): the render path discards the entire backbuffer
instead of removing only the consumed samples from its head: with 5
unconsumed native samples buffered, a render call that consumes none of
them (it writes 0 host samples) still resets the used count to 0 — the 5
unconsumed samples do not remain. -/
theorem render_discards_entire_backbuffer :
    (pregenerate 5 initialInterface).backbuffer_used = 5
    ∧ (iface_generate 3 44100 (pregenerate 5 initialInterface)).2.1 = 0
    ∧ (iface_generate 3 44100 (pregenerate 5 initialInterface)).1.backbuffer_used = 0
    ∧ (0 : Nat) ≠ 5 := by
  refine ⟨rfl, rfl, rfl, by decide⟩

end Ym2151
